import Mathlib

/-!
Verification of the task-execution core of the desktop-automation agent.

The definitions below are a shallow embedding of the Python sources:
  * `parseAction`           embeds `reasoning/decision_maker.py::DecisionMaker._parse_action`
  * `executeAction`         embeds `action/action_executor.py::ActionExecutor.execute_action`
  * `analyzeCurrentScreen`  embeds `perception/screen_analyzer.py::ScreenAnalyzer.analyze_current_screen`
  * `clearCache`            embeds `perception/screen_analyzer.py::ScreenAnalyzer.clear_cache`
  * `go` / `execPlan`       embed  `orchestration/agent_core.py::AgentCore._execute_plan`
  * `processCurrentTask`    embeds `orchestration/agent_core.py::AgentCore._process_current_task`

Python strings are modelled as `List Char` (with `String` wrappers at the
interfaces); `str.upper` / `str.lower` / `str.strip` are modelled on their
ASCII fragment, which is the fragment exercised by the action grammar.
External collaborators (the language model, pyautogui, the launcher, the
capture backend) are modelled as oracle environments supplying the result of
each call; the control flow around those calls is translated faithfully.
-/

/-- Whitespace recognised by Python's `str.strip` / `str.split` (ASCII fragment). -/
def pySpace (c : Char) : Bool :=
  c = ' ' || c = '\t' || c = '\n' || c = '\r' || c = '\x0b' || c = '\x0c'

/-- Python `str.strip()` on a list of characters. -/
def pyStrip (l : List Char) : List Char :=
  ((l.dropWhile pySpace).reverse.dropWhile pySpace).reverse

/-- ASCII fragment of Python `str.upper` on one character. -/
def pyUpperChar (c : Char) : Char :=
  if 97 ≤ c.toNat ∧ c.toNat ≤ 122 then Char.ofNat (c.toNat - 32) else c

/-- ASCII fragment of Python `str.lower` on one character. -/
def pyLowerChar (c : Char) : Char :=
  if 65 ≤ c.toNat ∧ c.toNat ≤ 90 then Char.ofNat (c.toNat + 32) else c

/-- Python `str.upper()` on a list of characters (ASCII fragment). -/
def pyUpperL (l : List Char) : List Char := l.map pyUpperChar

/-- Python `str.lower()` on a list of characters (ASCII fragment). -/
def pyLowerL (l : List Char) : List Char := l.map pyLowerChar

/-- Python `str.upper()` on a `String` (ASCII fragment). -/
def pyUpper (s : String) : String := (pyUpperL s.toList).asString

/-- Python's substring test `needle in hay`. -/
def strIn (needle : List Char) : List Char → Bool
  | [] => needle.isPrefixOf []
  | c :: rest => needle.isPrefixOf (c :: rest) || strIn needle rest

/-- `s.startswith(kw)` where `kw` is a keyword literal. -/
def isPre (kw : String) (l : List Char) : Bool := kw.toList.isPrefixOf l

/-- Helper for Python `str.split()`: accumulate the current word. -/
def pySplitAux : List Char → List Char → List (List Char)
  | [], acc => if acc.isEmpty then [] else [acc.reverse]
  | c :: t, acc =>
      if pySpace c then
        if acc.isEmpty then pySplitAux t [] else acc.reverse :: pySplitAux t []
      else pySplitAux t (c :: acc)

/-- Python `str.split()` with no separator: split on whitespace runs, no empties. -/
def pySplitL (l : List Char) : List (List Char) := pySplitAux l []

/-- Helper for Python `str.split(sep)` with a one-character separator. -/
def splitOnCharAux (sep : Char) : List Char → List Char → List (List Char)
  | [], acc => [acc.reverse]
  | c :: t, acc =>
      if c = sep then acc.reverse :: splitOnCharAux sep t []
      else splitOnCharAux sep t (c :: acc)

/-- Python `str.split(sep)`: keeps empty fields. -/
def splitOnChar (sep : Char) (l : List Char) : List (List Char) :=
  splitOnCharAux sep l []

/-- Is the character an ASCII decimal digit? -/
def isDigitC (c : Char) : Bool := 48 ≤ c.toNat && c.toNat ≤ 57

/-- Value of a non-empty all-digit character list; `none` otherwise. -/
def digitsVal (l : List Char) : Option Nat :=
  if l.isEmpty || !(l.all isDigitC) then none
  else some (l.foldl (fun n c => n * 10 + (c.toNat - 48)) 0)

/-- Value of a possibly-empty all-digit list, empty meaning `0`
(used for the integer and fraction parts around a decimal point). -/
def digitsVal0 (l : List Char) : Nat :=
  l.foldl (fun n c => n * 10 + (c.toNat - 48)) 0

/-- Python `int(s)`: optional surrounding whitespace, optional sign, digits
(the digit-group-underscore extension is not modelled; the grammar never
produces it). `none` models a raised `ValueError`. -/
def pyInt? (l : List Char) : Option Int :=
  match pyStrip l with
  | '-' :: rest => (digitsVal rest).map (fun n => -(n : Int))
  | '+' :: rest => (digitsVal rest).map (fun n => (n : Int))
  | t => (digitsVal t).map (fun n => (n : Int))

/-- Magnitude part of Python `float(s)`: `digits`, `digits.`, `.digits` or
`digits.digits` (the exponent/inf/nan forms are not modelled; the grammar
only meets plain decimals). -/
def pyFloatMag (l : List Char) : Option Rat :=
  let intPart := l.takeWhile (· ≠ '.')
  match l.dropWhile (· ≠ '.') with
  | [] => (digitsVal intPart).map (fun n => (n : Rat))
  | '.' :: frac =>
      if frac.any (· = '.') then none
      else if intPart.isEmpty && frac.isEmpty then none
      else if intPart.all isDigitC && frac.all isDigitC then
        some ((digitsVal0 intPart : Rat) + (digitsVal0 frac : Rat) / ((10 : Rat) ^ frac.length))
      else none
  | _ => none

/-- Python `float(s)` (decimal fragment). `none` models a raised `ValueError`. -/
def pyFloat? (l : List Char) : Option Rat :=
  match pyStrip l with
  | '-' :: rest => (pyFloatMag rest).map (fun q => -q)
  | '+' :: rest => pyFloatMag rest
  | t => pyFloatMag t

/-- `s.startswith(q) and s.endswith(q)` quote stripping used by the parser:
strip one double quote from each end when both are present. -/
def stripQuotes (l : List Char) : List Char :=
  if l.head? = some '\x22' && l.getLast? = some '\x22' then (l.drop 1).dropLast
  else l

/-- Normalized action records, after `_parse_action` / as consumed by
`execute_action`. The `type` dict tag of the Python record is the
constructor; type-specific dict fields are the constructor arguments. -/
inductive Act where
  | click (x y : Int)
  | type (text : String)
  | press (key : String)
  | wait (duration : Rat)
  | scroll (direction : String)
  | run (cmd : String)
  | launch (app : String)
  | launch_chrome
  | double_click (x y : Int)
  | right_click (x y : Int)
  | drag (x1 y1 x2 y2 : Int)
  | screenshot
  | unknown (raw : String)
deriving DecidableEq

/-- Duration extraction of the WAIT clause:
`float(action.split()[1]) if len(action.split()) > 1 else 2`, with
`ValueError`/`IndexError` defaulting to `2`. -/
def waitDuration (action : List Char) : Rat :=
  match pySplitL action with
  | _ :: p :: _ =>
      match pyFloat? p with
      | some d => d
      | none => 2
  | _ => 2

/-- Embedding of `DecisionMaker._parse_action` (decision_maker.py, lines 40-89):
the line is first `strip().upper()`-ed, then matched against the keyword
chain; a CLICK clause with malformed coordinates falls through to `unknown`,
which carries the original (unstripped, un-uppercased) text. -/
def parseActionCore (action_text : String) (action : List Char) : Act :=
  if isPre "CLICK" action then
    match pySplitL action with
    | _ :: p1 :: p2 :: _ =>
        match pyInt? p1, pyInt? p2 with
        | some x, some y => Act.click x y
        | _, _ => Act.unknown action_text
    | _ => Act.unknown action_text
  else if isPre "TYPE" action then
    Act.type (stripQuotes (pyStrip (action.drop 4))).asString
  else if isPre "PRESS" action then
    Act.press (pyLowerL (stripQuotes (pyStrip (action.drop 5)))).asString
  else if isPre "WAIT" action then
    Act.wait (waitDuration action)
  else if isPre "SCROLL" action then
    Act.scroll (if strIn "UP".toList action then "up" else "down")
  else if isPre "RUN" action then
    Act.run (stripQuotes (pyStrip (action.drop 3))).asString
  else if isPre "LAUNCH" action then
    if strIn "CHROME".toList (pyUpperL (stripQuotes (pyStrip (action.drop 6))).asString.toList) then
      Act.launch_chrome
    else Act.launch (stripQuotes (pyStrip (action.drop 6))).asString
  else Act.unknown action_text

/-- The `action = action_text.strip().upper()` entry point of
`_parse_action`. -/
def parseAction (action_text : String) : Act :=
  parseActionCore action_text (pyUpperL (pyStrip action_text.toList))

/-- Oracle for the collaborators called by `ActionExecutor.execute_action`.
Each field is the outcome of the corresponding collaborator call:
`Except.error e` models the call raising an exception with message `e`;
`Except.ok v` models a normal return with value `v` (the pyautogui-backed
controller methods return `None`, modelled as `Unit`, except
`MouseController.click`, which returns a `bool` that the executor discards,
and the launcher methods, which return the `bool` the executor reports). -/
structure ExecEnv where
  mouseClick : Int → Int → Except String Bool
  typeText : String → Except String Unit
  pressKey : String → Except String Unit
  hotkey : List String → Except String Unit
  sleep : Rat → Except String Unit
  scroll : String → Nat → Except String Unit
  doubleClick : Int → Int → Except String Unit
  rightClick : Int → Int → Except String Unit
  dragTo : Int → Int → Int → Int → Except String Unit
  popen : String → Except String Unit
  launchApp : String → Except String Bool
  launchChrome : Except String Bool
  screenshotSave : Except String String

/-- `key.split('+')` with each piece `strip()`-ed, as built for
`keyboard.hotkey(*keys)`. -/
def chordKeys (key : String) : List String :=
  (splitOnChar '+' key.toList).map (fun k => (pyStrip k).asString)

/-- Body of the `try:` block of `ActionExecutor.execute_action`
(action_executor.py, lines 28-99): dispatch on the action's `type` tag;
an `Except.error` is an exception escaping the block. The `clicks` field of
a scroll action is never set by the grammar, so `action.get('clicks', 3)`
is the constant `3`. -/
def executeActionBody (env : ExecEnv) : Act → Except String (Bool × String)
  | Act.click x y => do
      let _b ← env.mouseClick x y
      pure (true, "Clicked at (" ++ toString x ++ ", " ++ toString y ++ ")")
  | Act.type text => do
      let _u ← env.typeText text
      pure (true, "Typed text: " ++ (text.toList.take 20).asString ++
        (if 20 < text.toList.length then "..." else ""))
  | Act.press key =>
      if strIn "+".toList key.toList then do
        let _u ← env.hotkey (chordKeys key)
        pure (true, "Pressed hotkey: " ++ key)
      else do
        let _u ← env.pressKey key
        pure (true, "Pressed key: " ++ key)
  | Act.wait d => do
      let _u ← env.sleep d
      pure (true, "Waited for " ++ toString d ++ " seconds")
  | Act.scroll dir => do
      let _u ← env.scroll dir 3
      pure (true, "Scrolled " ++ dir ++ " 3 clicks")
  | Act.double_click x y => do
      let _u ← env.doubleClick x y
      pure (true, "Double-clicked at (" ++ toString x ++ ", " ++ toString y ++ ")")
  | Act.right_click x y => do
      let _u ← env.rightClick x y
      pure (true, "Right-clicked at (" ++ toString x ++ ", " ++ toString y ++ ")")
  | Act.drag x1 y1 x2 y2 => do
      let _u ← env.dragTo x1 y1 x2 y2
      pure (true, "Dragged from (" ++ toString x1 ++ ", " ++ toString y1 ++
        ") to (" ++ toString x2 ++ ", " ++ toString y2 ++ ")")
  | Act.run cmd => do
      let _u ← env.popen cmd
      pure (true, "Ran command: " ++ cmd)
  | Act.launch app => do
      let success ← env.launchApp app
      pure (success,
        if success then "Launched app: " ++ app else "Failed to launch: " ++ app)
  | Act.launch_chrome => do
      let success ← env.launchChrome
      pure (success, if success then "Launched Chrome" else "Failed to launch Chrome")
  | Act.screenshot => do
      let f ← env.screenshotSave
      pure (true, "Saved screenshot to " ++ f)
  | Act.unknown _ =>
      pure (false, "Unknown action type: unknown")

/-- Embedding of `ActionExecutor.execute_action` (action_executor.py,
lines 26-102): the `try/except` wrapper turning any exception escaping the
dispatch body into `(False, "Error: ...")`. -/
def executeAction (env : ExecEnv) (a : Act) : Bool × String :=
  match executeActionBody env a with
  | Except.ok r => r
  | Except.error e => (false, "Error: " ++ e)

/-- State owned by `ScreenAnalyzer`: the single-slot cache
(`_cached_analysis`) and a counter of capture/analysis runs. Observations
are modelled by the id handed out by the capture oracle. -/
structure AnalyzerSt where
  cached : Option Nat
  captures : Nat
deriving DecidableEq

/-- Embedding of `ScreenAnalyzer.analyze_current_screen` (screen_analyzer.py,
lines 18-48): reuse the cached analysis unless `force_new` is set or the
cache is empty; otherwise run one fresh capture+analysis (supplied by the
`capture` oracle, indexed by the capture counter), store and return it. -/
def analyzeCurrentScreen (capture : Nat → Nat) (force_new : Bool) (st : AnalyzerSt) :
    Nat × AnalyzerSt :=
  match force_new, st.cached with
  | false, some a => (a, st)
  | _, _ =>
      let a := capture st.captures
      (a, ⟨some a, st.captures + 1⟩)

/-- Embedding of `ScreenAnalyzer.clear_cache` (screen_analyzer.py,
lines 78-80). -/
def clearCache (st : AnalyzerSt) : AnalyzerSt := ⟨none, st.captures⟩

/-- One plan step (`{'number': ..., 'description': ..., 'details': [...]}`).
A step is deterministic iff `details` is non-empty. -/
structure Step where
  number : Nat
  description : String
  details : List String
deriving DecidableEq

/-- Oracle for everything `_execute_plan` / `_process_current_task` observe
from outside: the stop/pause flags as read at the top of each step, the
language-model replies, the dispatch outcomes, the direct mouse calls of the
CLICK detail path, the capture backend and the planner result. Call-counter
indices identify successive calls to the same collaborator. -/
structure LoopEnv where
  running : Nat → Bool
  paused : Nat → Bool
  decideResp : Nat → String
  errResp : Nat → String
  execASucc : Nat → Act → Bool
  execARes : Nat → Act → String
  moveOk : Nat → Bool
  clickOk : Nat → Bool
  mousePos : Nat → Int × Int
  capture : Nat → Nat
  planResult : List Step

/-- Mutable state threaded through the execution loop: the analyzer state,
site-tagged invalidation counters (`preInv` counts the `clear_cache` before
a non-first decision step, `postInv` the one after a successful action),
`ctxStepIndex` is `context.current_step_index`, plus call counters and the
list of step indices at which `execute_action` ran. -/
structure LoopSt where
  an : AnalyzerSt
  preInv : Nat
  postInv : Nat
  ctxStepIndex : Int
  decides : Nat
  errs : Nat
  dispatches : Nat
  dispatchedSteps : List Nat
  detClicks : Nat
deriving DecidableEq

/-- Initial loop state: empty cache, zero counters,
`current_step_index = -1` as set by `ContextManager.start_task`. -/
def initSt : LoopSt := ⟨⟨none, 0⟩, 0, 0, -1, 0, 0, 0, [], 0⟩

/-- `self.perception.clear_cache()` as called from the orchestrator. -/
def loopClearCache (st : LoopSt) : LoopSt := { st with an := clearCache st.an }

/-- `self.perception.analyze_current_screen(...)` as called from the
orchestrator. -/
def loopObserve (env : LoopEnv) (force_new : Bool) (st : LoopSt) : Nat × LoopSt :=
  let (a, an') := analyzeCurrentScreen env.capture force_new st.an
  (a, { st with an := an' })

/-- Result of one step body: `proceed` models the Python `continue`
(the `for` loop moves to the next plan entry), `abort` models `return False`. -/
inductive StepRes where
  | proceed (st : LoopSt)
  | abort (st : LoopSt)
deriving DecidableEq

/-- One detail line of a deterministic step (agent_core.py, lines 221-268).
Returns whether this detail line executed successfully, and the updated
state. WAIT details always succeed (the duration parse, lines 224-227,
defaults to 2 and the sleep is modelled as returning normally); CLICK
details succeed iff the `move_to` and the `click` at the verified position
both report success (any exception in that block is caught and the line is
skipped, modelled by the `false` oracle outcomes); all other lines go
through `_parse_action` and `execute_action`. -/
def runDetail (env : LoopEnv) (idx : Nat) (detail : String) (st : LoopSt) :
    Bool × LoopSt :=
  let up := pyUpperL detail.toList
  if isPre "WAIT" up then
    (true, st)
  else if isPre "CLICK " up then
    match pySplitL up with
    | _ :: p1 :: p2 :: _ =>
        match pyInt? p1, pyInt? p2 with
        | some _x, some _y =>
            let k := st.detClicks
            let st' := { st with detClicks := st.detClicks + 1 }
            if env.moveOk k = false then (false, st')
            else
              let (_cx, _cy) := env.mousePos k
              if env.clickOk k then (true, st') else (false, st')
        | _, _ => (false, st)
    | _ => (false, st)
  else
    let action := parseAction detail
    let s := env.execASucc st.dispatches action
    (s, { st with dispatches := st.dispatches + 1,
                  dispatchedSteps := st.dispatchedSteps ++ [idx] })

/-- Per-detail success outcomes of a deterministic step, in order, with the
same state threading as `runDetails`. -/
def detailOutcomes (env : LoopEnv) (idx : Nat) : List String → LoopSt → List Bool
  | [], _ => []
  | d :: ds, st =>
      let (b, st') := runDetail env idx d st
      b :: detailOutcomes env idx ds st'

/-- The detail loop of a deterministic step (agent_core.py, lines 219-268):
`step_succeeded` starts `False` and is set whenever a detail line succeeds. -/
def runDetails (env : LoopEnv) (idx : Nat) : List String → Bool → LoopSt → Bool × LoopSt
  | [], succ, st => (succ, st)
  | d :: ds, succ, st =>
      let (b, st') := runDetail env idx d st
      runDetails env idx ds (succ || b) st'

/-- Body of a decision-driven step (agent_core.py, lines 282-327): refresh
the cache for non-first steps, observe, ask the decision maker, dispatch,
and on failure consult `handle_error` — a reply containing "RETRY" (any
case) sets `context.current_step_index := max 0 (idx - 2)` and `continue`s,
any other reply aborts the plan; on success the cache is invalidated and the
loop `continue`s to the next step. -/
def runDecisionStep (env : LoopEnv) (idx : Nat) (st : LoopSt) : StepRes :=
  let st1 := if 1 < idx then
      { loopClearCache st with preInv := st.preInv + 1 }
    else st
  let (_analysis, st2) := loopObserve env false st1
  let action := parseAction (env.decideResp st2.decides)
  let st3 := { st2 with decides := st2.decides + 1 }
  let success := env.execASucc st3.dispatches action
  let st4 := { st3 with dispatches := st3.dispatches + 1,
                        dispatchedSteps := st3.dispatchedSteps ++ [idx] }
  if success then
    StepRes.proceed { loopClearCache st4 with postInv := st4.postInv + 1 }
  else
    let resp := env.errResp st4.errs
    let st5 := { st4 with errs := st4.errs + 1 }
    if strIn "RETRY".toList (pyUpperL resp.toList) then
      StepRes.proceed { st5 with ctxStepIndex := max 0 ((idx : Int) - 2) }
    else
      StepRes.abort st5

/-- A deterministic step at loop position `idx` (agent_core.py,
lines 216-280): run the detail loop; if every detail failed and this is not
the last step, log and `continue`; if every detail failed and it is the last
step, `return False`; otherwise `continue`. `isLast` is `idx == len(plan)`. -/
def runDetStep (env : LoopEnv) (idx : Nat) (details : List String) (isLast : Bool)
    (st : LoopSt) : StepRes :=
  let (stepSucceeded, st') := runDetails env idx details false st
  if stepSucceeded = false && !isLast then StepRes.proceed st'
  else if stepSucceeded = false && isLast then StepRes.abort st'
  else StepRes.proceed st'

/-- The `for idx, step in enumerate(plan, start=1)` walk of `_execute_plan`
(agent_core.py, lines 205-331). `idx` is the 1-based position of the head
step, so `idx == len(plan)` exactly when `rest` is empty. A step body that
`continue`s proceeds to the next list entry; `return False` aborts; falling
off the end returns `True`. -/
def go (env : LoopEnv) : List Step → Nat → LoopSt → Bool × LoopSt
  | [], _, st => (true, st)
  | step :: rest, idx, st =>
      if !env.running idx || env.paused idx then (false, st)
      else
        match (match step.details with
               | [] => runDecisionStep env idx st
               | d :: ds => runDetStep env idx (d :: ds) rest.isEmpty st) with
        | StepRes.proceed st' => go env rest (idx + 1) st'
        | StepRes.abort st' => (false, st')

/-- Embedding of `AgentCore._execute_plan` (agent_core.py, lines 192-331):
an empty plan is rejected up front, otherwise the step walk starts at
position 1. -/
def execPlan (env : LoopEnv) (plan : List Step) (st : LoopSt) : Bool × LoopSt :=
  if plan.isEmpty then (false, st)
  else go env plan 1 st

/-- Embedding of `AgentCore._process_current_task` (agent_core.py,
lines 169-190): clear the cache, take one fresh analysis for planning, ask
the planner; an empty plan is a hard failure before any step runs,
otherwise `set_plan` stores the plan (`current_step_index := 0`) and the
plan is executed. -/
def processCurrentTask (env : LoopEnv) : Bool × LoopSt :=
  let st1 := loopClearCache initSt
  let (_analysis, st2) := loopObserve env true st1
  let plan := env.planResult
  if plan.isEmpty then (false, st2)
  else execPlan env plan { st2 with ctxStepIndex := 0 }

/-- Task status recorded by the owner of `_process_current_task`
(`_process_task` / `_agent_loop`, agent_core.py lines 131-136 and 155-161,
with `ContextManager.set_task_completed` / `set_task_failed`). -/
def taskOutcome (env : LoopEnv) : String :=
  if (processCurrentTask env).1 then "completed" else "failed"

/-- Is the character an ASCII uppercase letter? -/
def isAsciiUpperChar (c : Char) : Bool := decide (65 ≤ c.toNat ∧ c.toNat ≤ 90)

/-- Collaborator oracle in which every call returns normally, the mouse
click reporting `False` and the launcher reporting failure. -/
def env9 : ExecEnv where
  mouseClick := fun _ _ => Except.ok false
  typeText := fun _ => Except.ok ()
  pressKey := fun _ => Except.ok ()
  hotkey := fun _ => Except.ok ()
  sleep := fun _ => Except.ok ()
  scroll := fun _ _ => Except.ok ()
  doubleClick := fun _ _ => Except.ok ()
  rightClick := fun _ _ => Except.ok ()
  dragTo := fun _ _ _ _ => Except.ok ()
  popen := fun _ => Except.ok ()
  launchApp := fun _ => Except.ok false
  launchChrome := Except.ok false
  screenshotSave := Except.ok "shot.png"

/-- Collaborator oracle in which the mouse click raises. -/
def envBoom : ExecEnv :=
  { env9 with mouseClick := fun _ _ => Except.error "boom" }

/-- A one-step plan used by the pause scenarios. -/
def stepA : Step := ⟨1, "open the browser", []⟩

/-- Environment whose owner has signalled pause before every step check,
while `is_running` stays true (no stop was requested) and every
collaborator call would succeed. -/
def envPaused : LoopEnv where
  running := fun _ => true
  paused := fun _ => true
  decideResp := fun _ => "WAIT"
  errResp := fun _ => "RETRY"
  execASucc := fun _ _ => true
  execARes := fun _ _ => "ok"
  moveOk := fun _ => true
  clickOk := fun _ => true
  mousePos := fun _ => (0, 0)
  capture := fun k => k
  planResult := [stepA]

/-- Environment whose planner returns no steps. -/
def envEmptyPlan : LoopEnv :=
  { envPaused with paused := fun _ => false, planResult := [] }

/-- A deterministic fallback step in which the wait succeeds and the click
fails. -/
def stepDet : Step := ⟨1, "fallback", ["WAIT 1", "CLICK 10 10"]⟩

/-- Environment for the fallback-step scenario: direct clicks fail, all
other collaborator calls succeed. -/
def envDet : LoopEnv :=
  { envPaused with
      paused := fun _ => false
      clickOk := fun _ => false
      planResult := [stepDet] }

/-- Two decision-driven steps (empty `details`). -/
def stepD1 : Step := ⟨1, "first", []⟩

/-- Second decision-driven step. -/
def stepD2 : Step := ⟨2, "second", []⟩

/-- Environment in which every dispatch succeeds. -/
def envAllOk : LoopEnv :=
  { envPaused with
      paused := fun _ => false
      decideResp := fun _ => "CLICK 5 5"
      planResult := [stepD1, stepD2] }

/-- Environment for the retry scenario: the first dispatched action fails,
later ones succeed, and `handle_error` always answers with text containing
"RETRY". -/
def envRetry : LoopEnv :=
  { envPaused with
      paused := fun _ => false
      decideResp := fun _ => "CLICK 5 5"
      errResp := fun _ => "Please RETRY"
      execASucc := fun k _ => decide (k ≠ 0)
      planResult := [stepD1, stepD2] }

example : parseAction "CLICK 120 340" = Act.click 120 340 := by decide
example : parseAction "TYPE \x22hello world\x22" = Act.type "HELLO WORLD" := by decide
example : parseAction "PRESS \x22Ctrl+A\x22" = Act.press "ctrl+a" := by decide
example : parseAction "WAIT" = Act.wait 2 := by decide
example : parseAction "SCROLL up" = Act.scroll "up" := by decide
example : parseAction "FOO BAR" = Act.unknown "FOO BAR" := by decide

theorem toNat_ofNat_of_lt (n : Nat) (h : n < 55296) : (Char.ofNat n).toNat = n := by
  have hv : n.isValidChar := Or.inl h
  unfold Char.ofNat
  rw [dif_pos hv]
  rfl

theorem pyLowerChar_not_upper (c : Char) : isAsciiUpperChar (pyLowerChar c) = false := by
  unfold pyLowerChar
  by_cases h : 65 ≤ c.toNat ∧ c.toNat ≤ 90
  · rw [if_pos h]
    have ht : (Char.ofNat (c.toNat + 32)).toNat = c.toNat + 32 :=
      toNat_ofNat_of_lt _ (by omega)
    simp only [isAsciiUpperChar, decide_eq_false_iff_not, not_and, ht]
    omega
  · rw [if_neg h]
    simp only [isAsciiUpperChar, decide_eq_false_iff_not]
    exact h

theorem pyLowerL_no_upper (l : List Char) :
    (pyLowerL l).all (fun c => !(isAsciiUpperChar c)) = true := by
  induction l with
  | nil => rfl
  | cons c t ih =>
      simp only [pyLowerL, List.map_cons, List.all_cons, pyLowerChar_not_upper c,
        Bool.not_false, Bool.true_and]
      simpa [pyLowerL] using ih

/-- C10: every action parsed into a PRESS action carries a key with no
ASCII uppercase letter: the parser lowercases the captured key string
(quoted or bare), so the original letter case never survives into the
parsed action. -/
theorem press_key_all_lowercase (s k : String) (h : parseAction s = Act.press k) :
    k.toList.all (fun c => !(isAsciiUpperChar c)) = true := by
  unfold parseAction parseActionCore at h
  repeat' split at h
  all_goals first
    | (injection h with hk
       subst hk
       exact pyLowerL_no_upper _)
    | (exact absurd h (by simp))

theorem press_key_all_lowercase_witness :
    parseAction "PRESS \x22Ctrl+A\x22" = Act.press "ctrl+a" ∧
      ("ctrl+a" : String).toList.all (fun c => !(isAsciiUpperChar c)) = true :=
  ⟨by decide, press_key_all_lowercase "PRESS \x22Ctrl+A\x22" "ctrl+a" (by decide)⟩

theorem pyStrip_of_ends (a b : Char) (mid : List Char) (ha : pySpace a = false)
    (hb : pySpace b = false) :
    pyStrip (a :: (mid ++ [b])) = a :: (mid ++ [b]) := by
  simp [pyStrip, List.dropWhile_cons, ha, hb]

theorem stripQuotes_wrap (m : List Char) :
    stripQuotes ('\x22' :: (m ++ ['\x22'])) = m := by
  have hg : ('\x22' :: (m ++ ['\x22'])).getLast? = some '\x22' := by
    rw [← List.cons_append]
    exact List.getLast?_concat _
  unfold stripQuotes
  rw [hg]
  simp

/-- C3 counterexample: the parser uppercases the whole line before
extracting the TYPE payload, so the text field does not preserve the
original letter case. -/
theorem type_text_not_case_preserved_cex :
    parseAction "TYPE \x22hello world\x22" = Act.type "HELLO WORLD" ∧
      parseAction "TYPE \x22hello world\x22" ≠ Act.type "hello world" := by
  constructor
  · decide
  · decide

/-- C3 amended: the TYPE keyword is recognised case-insensitively, and the
returned type action's text field is the UPPERCASED payload (the parser
operates on the uppercased line, not the raw captured substring). -/
theorem type_keyword_ci_text_uppercased (t : String) :
    parseAction ("tYpE \x22" ++ t ++ "\x22") = Act.type (pyUpper t) := by
  have hl : ("tYpE \x22" ++ t ++ "\x22").toList =
      't' :: ('Y' :: 'p' :: 'E' :: ' ' :: '\x22' :: t.toList ++ ['\x22']) := by
    simp [String.toList]
  unfold parseAction parseActionCore
  rw [hl]
  rw [show ('Y' :: 'p' :: 'E' :: ' ' :: '\x22' :: t.toList ++ ['\x22'] : List Char) =
      (('Y' :: 'p' :: 'E' :: ' ' :: '\x22' :: t.toList) ++ ['\x22']) from by simp]
  rw [pyStrip_of_ends 't' '\x22' _ (by decide) (by decide)]
  simp only [pyUpperL, List.map_cons, List.map_append,
    show pyUpperChar 't' = 'T' from by decide,
    show pyUpperChar 'Y' = 'Y' from by decide,
    show pyUpperChar 'p' = 'P' from by decide,
    show pyUpperChar 'E' = 'E' from by decide,
    show pyUpperChar ' ' = ' ' from by decide,
    show pyUpperChar '\x22' = '\x22' from by decide,
    List.map_nil, List.cons_append, List.nil_append]
  rw [show isPre "CLICK" ('T' :: 'Y' :: 'P' :: 'E' :: ' ' :: '\x22' ::
        (List.map pyUpperChar t.toList ++ ['\x22'])) = false from by
      simp [isPre, List.isPrefixOf]]
  rw [show isPre "TYPE" ('T' :: 'Y' :: 'P' :: 'E' :: ' ' :: '\x22' ::
        (List.map pyUpperChar t.toList ++ ['\x22'])) = true from by
      simp [isPre, List.isPrefixOf]]
  simp only [Bool.false_eq_true, if_false, if_true, List.drop_succ_cons, List.drop_zero]
  rw [show (' ' :: '\x22' :: (List.map pyUpperChar t.toList ++ ['\x22']) : List Char) =
      ' ' :: ('\x22' :: (List.map pyUpperChar t.toList ++ ['\x22'])) from rfl]
  rw [show pyStrip (' ' :: ('\x22' :: (List.map pyUpperChar t.toList ++ ['\x22']))) =
      pyStrip ('\x22' :: (List.map pyUpperChar t.toList ++ ['\x22'])) from by
    simp [pyStrip, List.dropWhile_cons, show pySpace ' ' = true from by decide,
      show pySpace '\x22' = false from by decide]]
  rw [show ('\x22' :: (List.map pyUpperChar t.toList ++ ['\x22']) : List Char) =
      '\x22' :: ((List.map pyUpperChar t.toList) ++ ['\x22']) from rfl]
  rw [pyStrip_of_ends '\x22' '\x22' _ (by decide) (by decide)]
  rw [stripQuotes_wrap (List.map pyUpperChar t.toList)]
  rfl

/-- C5: with a cached Observation present, two consecutive
`observe(force_refresh=false)` calls both return that Observation and the
state (in particular the capture counter) is unchanged — no re-capture;
and an `invalidate()` followed by an `observe` (with either flag value)
performs exactly one new capture. -/
theorem observe_cache_no_recapture (capture : Nat → Nat) (st : AnalyzerSt) (a : Nat)
    (h : st.cached = some a) :
    analyzeCurrentScreen capture false st = (a, st) ∧
      analyzeCurrentScreen capture false (analyzeCurrentScreen capture false st).2 =
        (a, st) ∧
      (∀ (fn : Bool) (st2 : AnalyzerSt),
        (analyzeCurrentScreen capture fn (clearCache st2)).2.captures =
            st2.captures + 1 ∧
          (analyzeCurrentScreen capture fn (clearCache st2)).1 = capture st2.captures) := by
  have h1 : analyzeCurrentScreen capture false st = (a, st) := by
    unfold analyzeCurrentScreen
    rw [h]
  refine ⟨h1, by rw [h1]; exact h1, ?_⟩
  intro fn st2
  cases fn <;> simp [analyzeCurrentScreen, clearCache]

theorem observe_cache_no_recapture_witness :
    analyzeCurrentScreen (fun k => k + 100) false ⟨some 7, 3⟩ = (7, ⟨some 7, 3⟩) ∧
      (analyzeCurrentScreen (fun k => k + 100) false
          (clearCache (⟨some 7, 3⟩ : AnalyzerSt))).2.captures = 4 :=
  ⟨(observe_cache_no_recapture (fun k => k + 100) ⟨some 7, 3⟩ 7 rfl).1,
    ((observe_cache_no_recapture (fun k => k + 100) ⟨some 7, 3⟩ 7 rfl).2.2
      false ⟨some 7, 3⟩).1⟩

/-- C6: `execute_action` never lets an exception escape — it is the
`try/except` catch of the dispatch body, an unknown action type yields
`(False, descriptive message)`, and any exception raised inside the
dispatch of a known type is returned as `(False, "Error: ...")` data. -/
theorem executeAction_never_raises (env : ExecEnv) (a : Act) :
    executeAction env a =
        (match executeActionBody env a with
         | Except.ok r => r
         | Except.error e => (false, "Error: " ++ e)) ∧
      (∀ raw, a = Act.unknown raw →
        executeAction env a = (false, "Unknown action type: unknown")) ∧
      (∀ e, executeActionBody env a = Except.error e →
        executeAction env a = (false, "Error: " ++ e)) := by
  refine ⟨rfl, ?_, ?_⟩
  · intro raw h
    subst h
    rfl
  · intro e h
    unfold executeAction
    rw [h]

theorem executeAction_never_raises_witness :
    executeAction env9 (Act.unknown "FOO BAR") = (false, "Unknown action type: unknown") ∧
      executeAction envBoom (Act.click 1 2) = (false, "Error: " ++ "boom") :=
  ⟨(executeAction_never_raises env9 (Act.unknown "FOO BAR")).2.1 "FOO BAR" rfl,
    (executeAction_never_raises envBoom (Act.click 1 2)).2.2 "boom" rfl⟩

/-- C9: for click/type/press/wait/scroll actions the dispatcher reports
success exactly when the underlying controller call returns without
raising — the controller's own boolean return (present for `mouse.click`)
is discarded — whereas for launch / launch_chrome the reported success is
the boolean the launch collaborator returns. -/
theorem dispatch_ignores_controller_bool (env : ExecEnv) (x y : Int) (b : Bool)
    (text key dir app : String) (d : Rat) :
    (env.mouseClick x y = Except.ok b →
        executeAction env (Act.click x y) =
          (true, "Clicked at (" ++ toString x ++ ", " ++ toString y ++ ")")) ∧
      ((executeAction env (Act.click x y)).1 = false →
        ∃ e, env.mouseClick x y = Except.error e) ∧
      (env.typeText text = Except.ok () → (executeAction env (Act.type text)).1 = true) ∧
      ((executeAction env (Act.type text)).1 = false →
        ∃ e, env.typeText text = Except.error e) ∧
      (strIn "+".toList key.toList = false → env.pressKey key = Except.ok () →
        (executeAction env (Act.press key)).1 = true) ∧
      (strIn "+".toList key.toList = true → env.hotkey (chordKeys key) = Except.ok () →
        (executeAction env (Act.press key)).1 = true) ∧
      ((executeAction env (Act.press key)).1 = false →
        (∃ e, env.pressKey key = Except.error e) ∨
          (∃ e, env.hotkey (chordKeys key) = Except.error e)) ∧
      (env.sleep d = Except.ok () → (executeAction env (Act.wait d)).1 = true) ∧
      ((executeAction env (Act.wait d)).1 = false → ∃ e, env.sleep d = Except.error e) ∧
      (env.scroll dir 3 = Except.ok () → (executeAction env (Act.scroll dir)).1 = true) ∧
      ((executeAction env (Act.scroll dir)).1 = false →
        ∃ e, env.scroll dir 3 = Except.error e) ∧
      (env.launchApp app = Except.ok b → (executeAction env (Act.launch app)).1 = b) ∧
      (env.launchChrome = Except.ok b → (executeAction env Act.launch_chrome).1 = b) := by
  refine ⟨?_, ?_, ?_, ?_, ?_, ?_, ?_, ?_, ?_, ?_, ?_, ?_, ?_⟩
  · intro h
    simp [executeAction, executeActionBody, h]
  · intro h
    cases hc : env.mouseClick x y with
    | ok v => simp [executeAction, executeActionBody, hc] at h
    | error e => exact ⟨e, rfl⟩
  · intro h
    simp [executeAction, executeActionBody, h]
  · intro h
    cases hc : env.typeText text with
    | ok v => simp [executeAction, executeActionBody, hc] at h
    | error e => exact ⟨e, rfl⟩
  · intro hplus h
    have hplus2 : strIn ['+'] key.data = false := hplus
    simp [executeAction, executeActionBody, hplus2, h]
  · intro hplus h
    have hplus2 : strIn ['+'] key.data = true := hplus
    simp [executeAction, executeActionBody, hplus2, h]
  · intro h
    by_cases hplus : strIn "+".toList key.toList = true
    · right
      have hplus2 : strIn ['+'] key.data = true := hplus
      cases hc : env.hotkey (chordKeys key) with
      | ok v => simp [executeAction, executeActionBody, hplus2, hc] at h
      | error e => exact ⟨e, rfl⟩
    · left
      simp only [Bool.not_eq_true] at hplus
      have hplus2 : strIn ['+'] key.data = false := hplus
      cases hc : env.pressKey key with
      | ok v => simp [executeAction, executeActionBody, hplus2, hc] at h
      | error e => exact ⟨e, rfl⟩
  · intro h
    simp [executeAction, executeActionBody, h]
  · intro h
    cases hc : env.sleep d with
    | ok v => simp [executeAction, executeActionBody, hc] at h
    | error e => exact ⟨e, rfl⟩
  · intro h
    simp [executeAction, executeActionBody, h]
  · intro h
    cases hc : env.scroll dir 3 with
    | ok v => simp [executeAction, executeActionBody, hc] at h
    | error e => exact ⟨e, rfl⟩
  · intro h
    simp [executeAction, executeActionBody, h]
  · intro h
    simp [executeAction, executeActionBody, h]

theorem dispatch_ignores_controller_bool_witness :
    executeAction env9 (Act.click 3 4) = (true, "Clicked at (3, 4)") ∧
      (executeAction env9 (Act.launch "FIREFOX")).1 = false :=
  ⟨by
    have h := (dispatch_ignores_controller_bool env9 3 4 false "" "" "" "FIREFOX" 2).1 rfl
    simpa using h,
    (dispatch_ignores_controller_bool env9 3 4 false "" "" "" "FIREFOX" 2).2.2.2.2.2.2.2.2.2.2.2.1 rfl⟩

/-- C2 counterexample: pausing mid-plan is terminal for the task — with the
pause flag set (and no stop signalled: `running` stays true), the task
reaches the terminal "failed" status instead of remaining resumable, and
the plan body is never re-entered. -/
theorem pause_terminal_failure_cex :
    taskOutcome envPaused = "failed" ∧ envPaused.running 1 = true ∧
      (processCurrentTask envPaused).2.dispatches = 0 := by
  refine ⟨rfl, rfl, rfl⟩

/-- C2 amended: when the pause flag is observed at step `i`, `_execute_plan`
returns failure immediately with the loop state unchanged — no action of
step `i` is dispatched (no partial action) and the context cursor is left
as it was — and the task is marked failed exactly as for a stop; execution
does not resume at step `i`. -/
theorem pause_aborts_without_action (env : LoopEnv) (step : Step) (rest : List Step)
    (idx : Nat) (st : LoopSt) (h : env.paused idx = true) :
    go env (step :: rest) idx st = (false, st) := by
  unfold go
  rw [h]
  simp

theorem pause_aborts_without_action_witness :
    go envPaused [stepA] 1 initSt = (false, initSt) :=
  pause_aborts_without_action envPaused stepA [] 1 initSt rfl

/-- C8: a task whose planner returns an empty plan fails immediately:
`_process_current_task` returns `False` before the execution loop starts,
with no action dispatched and no error-recovery (retry) consulted. -/
theorem empty_plan_hard_failure (env : LoopEnv) (h : env.planResult = []) :
    (processCurrentTask env).1 = false ∧
      (processCurrentTask env).2.dispatches = 0 ∧
      (processCurrentTask env).2.errs = 0 ∧
      (processCurrentTask env).2.dispatchedSteps = [] := by
  unfold processCurrentTask
  rw [h]
  simp [loopObserve, loopClearCache, analyzeCurrentScreen, clearCache, initSt]

theorem empty_plan_hard_failure_witness :
    (processCurrentTask envEmptyPlan).1 = false ∧
      (processCurrentTask envEmptyPlan).2.dispatches = 0 ∧
      (processCurrentTask envEmptyPlan).2.errs = 0 ∧
      (processCurrentTask envEmptyPlan).2.dispatchedSteps = [] :=
  empty_plan_hard_failure envEmptyPlan rfl

theorem runDetails_eq_any (env : LoopEnv) (idx : Nat) (details : List String)
    (succ : Bool) (st : LoopSt) :
    (runDetails env idx details succ st).1 =
      (succ || (detailOutcomes env idx details st).any id) := by
  induction details generalizing succ st with
  | nil => simp [runDetails, detailOutcomes]
  | cons d ds ih =>
      simp only [runDetails, detailOutcomes]
      cases hb : runDetail env idx d st with
      | mk b st2 => simp [hb, ih, Bool.or_assoc]

theorem go_cons (env : LoopEnv) (step : Step) (rest : List Step) (idx : Nat)
    (st : LoopSt) (hrun : env.running idx = true) (hpau : env.paused idx = false) :
    go env (step :: rest) idx st =
      match (match step.details with
             | [] => runDecisionStep env idx st
             | d :: ds => runDetStep env idx (d :: ds) rest.isEmpty st) with
      | StepRes.proceed st2 => go env rest (idx + 1) st2
      | StepRes.abort st2 => (false, st2) := by
  conv_lhs => unfold go
  rw [hrun, hpau]
  simp

/-- C4: a deterministic step (non-empty `details`) succeeds iff at least
one of its detail lines executed successfully; on success or on failure at
a non-last step the loop continues with the next step, and on failure at
the last step the whole plan execution returns failure. -/
theorem det_step_at_least_one_rule (env : LoopEnv) (step : Step) (rest : List Step)
    (idx : Nat) (st : LoopSt) (hdet : step.details ≠ [])
    (hrun : env.running idx = true) (hpau : env.paused idx = false) :
    (runDetails env idx step.details false st).1 =
        (detailOutcomes env idx step.details st).any id ∧
      ((runDetails env idx step.details false st).1 = true →
        go env (step :: rest) idx st =
          go env rest (idx + 1) (runDetails env idx step.details false st).2) ∧
      ((runDetails env idx step.details false st).1 = false → rest ≠ [] →
        go env (step :: rest) idx st =
          go env rest (idx + 1) (runDetails env idx step.details false st).2) ∧
      ((runDetails env idx step.details false st).1 = false → rest = [] →
        go env (step :: rest) idx st =
          (false, (runDetails env idx step.details false st).2)) := by
  obtain ⟨d, ds, hds⟩ := List.exists_cons_of_ne_nil hdet
  have hgc := go_cons env step rest idx st hrun hpau
  rw [hds] at hgc
  refine ⟨by simpa using runDetails_eq_any env idx step.details false st, ?_, ?_, ?_⟩
  · intro hb
    rw [hds] at hb ⊢
    cases hr : runDetails env idx (d :: ds) false st with
    | mk b st2 =>
        rw [hr] at hb
        simp only at hb
        subst hb
        rw [hgc]
        simp only [runDetStep, hr]
        simp
  · intro hb hrest
    rw [hds] at hb ⊢
    cases hr : runDetails env idx (d :: ds) false st with
    | mk b st2 =>
        rw [hr] at hb
        simp only at hb
        subst hb
        have hre : rest.isEmpty = false := by
          cases rest with
          | nil => exact absurd rfl hrest
          | cons a l => rfl
        rw [hgc]
        simp only [runDetStep, hr, hre]
        simp
  · intro hb hrest
    subst hrest
    rw [hds] at hb ⊢
    cases hr : runDetails env idx (d :: ds) false st with
    | mk b st2 =>
        rw [hr] at hb
        simp only at hb
        subst hb
        rw [hgc]
        simp only [runDetStep, hr]
        simp

theorem det_step_at_least_one_rule_witness :
    (runDetails envDet 1 stepDet.details false initSt).1 =
        (detailOutcomes envDet 1 stepDet.details initSt).any id ∧
      detailOutcomes envDet 1 stepDet.details initSt = [true, false] ∧
      go envDet [stepDet] 1 initSt =
        go envDet [] 2 (runDetails envDet 1 stepDet.details false initSt).2 :=
  ⟨(det_step_at_least_one_rule envDet stepDet [] 1 initSt (by decide) rfl rfl).1,
    by decide,
    (det_step_at_least_one_rule envDet stepDet [] 1 initSt (by decide) rfl rfl).2.1
      (by decide)⟩

theorem runDecisionStep_success (env : LoopEnv) (idx : Nat) (st : LoopSt)
    (hs : ∀ k a, env.execASucc k a = true) :
    ∃ st2, runDecisionStep env idx st = StepRes.proceed st2 ∧
      st2.decides = st.decides + 1 ∧ st2.dispatches = st.dispatches + 1 ∧
      st2.postInv = st.postInv + 1 ∧
      st2.preInv = st.preInv + (if 1 < idx then 1 else 0) := by
  unfold runDecisionStep
  by_cases hidx : 1 < idx
  · simp only [hidx, if_true, loopObserve, loopClearCache, clearCache,
      analyzeCurrentScreen, hs]
    exact ⟨_, rfl, by simp, by simp, by simp, by simp [hidx]⟩
  · simp only [hidx, if_false]
    cases hc : st.an.cached with
    | some a =>
        simp only [loopObserve, analyzeCurrentScreen, hc, hs]
        exact ⟨_, rfl, by simp [loopClearCache, clearCache],
          by simp [loopClearCache, clearCache],
          by simp [loopClearCache, clearCache],
          by simp [loopClearCache, clearCache, hidx]⟩
    | none =>
        simp only [loopObserve, analyzeCurrentScreen, hc, hs]
        exact ⟨_, rfl, by simp [loopClearCache, clearCache],
          by simp [loopClearCache, clearCache],
          by simp [loopClearCache, clearCache],
          by simp [loopClearCache, clearCache, hidx]⟩

theorem go_all_success (env : LoopEnv) (plan : List Step) (idx : Nat) (st : LoopSt)
    (hidx : 1 ≤ idx)
    (hdec : ∀ s ∈ plan, s.details = [])
    (hrun : ∀ i, env.running i = true) (hpau : ∀ i, env.paused i = false)
    (hs : ∀ k a, env.execASucc k a = true) :
    (go env plan idx st).1 = true ∧
      (go env plan idx st).2.decides = st.decides + plan.length ∧
      (go env plan idx st).2.dispatches = st.dispatches + plan.length ∧
      (go env plan idx st).2.postInv = st.postInv + plan.length ∧
      (go env plan idx st).2.preInv =
        st.preInv + (plan.length - (if idx ≤ 1 then 1 else 0)) := by
  induction plan generalizing idx st with
  | nil => simp [go]
  | cons step rest ih =>
      have hd : step.details = [] := hdec step (List.mem_cons_self step rest)
      obtain ⟨st2, hrd, h1, h2, h3, h4⟩ := runDecisionStep_success env idx st hs
      rw [go_cons env step rest idx st (hrun idx) (hpau idx), hd, hrd]
      obtain ⟨g1, g2, g3, g4, g5⟩ :=
        ih (idx + 1) st2 (by omega) (fun s hsm => hdec s (List.mem_cons_of_mem _ hsm))
      refine ⟨g1, ?_, ?_, ?_, ?_⟩
      · show (go env rest (idx + 1) st2).2.decides = st.decides + (step :: rest).length
        rw [g2, h1]
        simp only [List.length_cons]
        omega
      · show (go env rest (idx + 1) st2).2.dispatches =
          st.dispatches + (step :: rest).length
        rw [g3, h2]
        simp only [List.length_cons]
        omega
      · show (go env rest (idx + 1) st2).2.postInv = st.postInv + (step :: rest).length
        rw [g4, h3]
        simp only [List.length_cons]
        omega
      · show (go env rest (idx + 1) st2).2.preInv =
          st.preInv + ((step :: rest).length - (if idx ≤ 1 then 1 else 0))
        rw [g5, h4]
        simp only [List.length_cons]
        split_ifs <;> omega

/-- C7: a non-empty plan of decision-driven steps whose dispatches all
succeed runs to completion: `_execute_plan` returns `True` after exactly N
dispatched actions, with N post-action cache invalidations and N-1
pre-decision invalidations (the first step reuses the observation taken
for planning instead of forcing a refresh). -/
theorem plan_all_success_counts (env : LoopEnv) (plan : List Step) (st : LoopSt)
    (hne : plan ≠ [])
    (hdec : ∀ s ∈ plan, s.details = [])
    (hrun : ∀ i, env.running i = true) (hpau : ∀ i, env.paused i = false)
    (hs : ∀ k a, env.execASucc k a = true) :
    (execPlan env plan st).1 = true ∧
      (execPlan env plan st).2.decides = st.decides + plan.length ∧
      (execPlan env plan st).2.dispatches = st.dispatches + plan.length ∧
      (execPlan env plan st).2.postInv = st.postInv + plan.length ∧
      (execPlan env plan st).2.preInv = st.preInv + (plan.length - 1) := by
  have hie : plan.isEmpty = false := by
    cases plan with
    | nil => exact absurd rfl hne
    | cons a l => rfl
  unfold execPlan
  rw [hie]
  have h := go_all_success env plan 1 st (le_refl 1) hdec hrun hpau hs
  simpa using h

theorem plan_all_success_counts_witness :
    (execPlan envAllOk [stepD1, stepD2] initSt).1 = true ∧
      (execPlan envAllOk [stepD1, stepD2] initSt).2.dispatches = 2 ∧
      (execPlan envAllOk [stepD1, stepD2] initSt).2.postInv = 2 ∧
      (execPlan envAllOk [stepD1, stepD2] initSt).2.preInv = 1 := by
  have h := plan_all_success_counts envAllOk [stepD1, stepD2] initSt
    (by decide) (by decide) (fun _ => rfl) (fun _ => rfl) (fun _ _ => rfl)
  exact ⟨h.1, h.2.2.1, h.2.2.2.1, h.2.2.2.2⟩

/-- C1 evaluation at the failing input: a two-step decision-driven plan
whose first dispatch fails with a "RETRY" recovery reply. The loop sets
`context.current_step_index` to `max 0 (1 - 2) = 0`, but the Python `for`
loop ignores that cursor: the actions dispatched are those of steps 1 and
then 2 (never a re-attempt of step 1), `handle_error` is consulted exactly
once, and the plan is reported as executed successfully. -/
theorem retry_does_not_rewind :
    (execPlan envRetry [stepD1, stepD2] initSt).1 = true ∧
      (execPlan envRetry [stepD1, stepD2] initSt).2.dispatchedSteps = [1, 2] ∧
      (execPlan envRetry [stepD1, stepD2] initSt).2.ctxStepIndex = 0 ∧
      (execPlan envRetry [stepD1, stepD2] initSt).2.errs = 1 ∧
      envRetry.execASucc 0 (parseAction (envRetry.decideResp 0)) = false ∧
      strIn "RETRY".toList (pyUpperL (envRetry.errResp 0).toList) = true := by
  refine ⟨by decide, by decide, by decide, by decide, by decide, by decide⟩

